import Mathlib

/-!
Shallow embedding of the core trading-signal pipeline:
`telegram_parser.py`, `bitunix_api.py` and `backtest_engine.py`
(backend/services).  Text handled by Python's `re` module is abstracted
as match-result inputs (the strings the regular expressions would
produce); all post-processing of those matches is translated directly
from the source.  Python floats are modelled as rationals, Python
`None`/falsy checks as `Option`/explicit zero tests.
-/

namespace Arie

/-! ### telegram_parser.py : low-level string helpers

Python string payloads are modelled as `List Char`.  `natOfDigits`,
`pyFloat` and `pyInt` model Python's `float(...)`/`int(...)` on the
character sets the parser can actually pass them (digits, dots, commas,
surrounding blanks). -/

def natOfDigits (cs : List Char) : ℕ :=
  cs.foldl (fun n c => 10 * n + (c.toNat - 48)) 0

def isPyFloatChar (c : Char) : Bool := c.isDigit || c = '.'

/-- Python `str.strip()` for the whitespace that can occur here. -/
def stripWs (cs : List Char) : List Char :=
  ((cs.dropWhile Char.isWhitespace).reverse.dropWhile Char.isWhitespace).reverse

/-- Python `str.replace(",", "")`. -/
def removeCommas (cs : List Char) : List Char := cs.filter (fun c => c ≠ ',')

/-- Python `float(s)` on strings drawn from `[0-9.]*`: accepts a nonempty
digit string with at most one dot ("5", "5.", ".5"), rejects "", "." and
multi-dot strings. -/
def pyFloat (cs : List Char) : Option ℚ :=
  if cs = [] then none
  else if ¬ cs.all isPyFloatChar then none
  else if 1 < cs.count '.' then none
  else
    let ip := cs.takeWhile (fun c => c ≠ '.')
    let fp := (cs.dropWhile (fun c => c ≠ '.')).drop 1
    if ip = [] ∧ fp = [] then none
    else some ((natOfDigits ip : ℚ) + (natOfDigits fp : ℚ) / 10 ^ fp.length)

/-- Python `int(s)` on a captured `(\d+)` group. -/
def pyInt (cs : List Char) : Option ℤ :=
  if cs ≠ [] ∧ cs.all Char.isDigit then some (natOfDigits cs : ℤ) else none

/-- Python `str.split("-")`: splits on every dash, keeping empty parts. -/
def splitDash : List Char → List (List Char)
  | [] => [[]]
  | c :: cs =>
    if c = '-' then [] :: splitDash cs
    else
      match splitDash cs with
      | p :: ps => (c :: p) :: ps
      | [] => [[c]]

/-- One maximal token of `re` pattern `\d+\.?\d*` starting at the given
character list (whose head is known to be a digit): greedy digits, an
optional single dot, then greedy digits.  Returns the token and the rest
of the input after it. -/
def grabNumber (cs : List Char) : List Char × List Char :=
  let ds := cs.takeWhile Char.isDigit
  let r1 := cs.dropWhile Char.isDigit
  match r1 with
  | '.' :: r2 => (ds ++ '.' :: r2.takeWhile Char.isDigit, r2.dropWhile Char.isDigit)
  | _ => (ds, r1)

theorem grabNumber_snd_length_lt (c : Char) (cs : List Char) (h : c.isDigit = true) :
    (grabNumber (c :: cs)).2.length < (c :: cs).length := by
  have h1 : (c :: cs).dropWhile Char.isDigit = cs.dropWhile Char.isDigit := by
    simp [List.dropWhile_cons, h]
  have h2 : (cs.dropWhile Char.isDigit).length ≤ cs.length :=
    List.Sublist.length_le (@List.dropWhile_sublist _ cs Char.isDigit)
  simp only [grabNumber]
  rw [h1]
  split
  next r2 heq =>
    have h4 : (r2.dropWhile Char.isDigit).length ≤ r2.length :=
      List.Sublist.length_le (@List.dropWhile_sublist _ r2 Char.isDigit)
    rw [heq] at h2
    simp only [List.length_cons] at h2 ⊢
    omega
  next =>
    simp only [List.length_cons]
    omega

/-- All matches of `re.findall(r"\d+\.?\d*", text)` in order. -/
def findNumbers : List Char → List (List Char)
  | [] => []
  | c :: cs =>
    if h : c.isDigit then
      (grabNumber (c :: cs)).1 :: findNumbers (grabNumber (c :: cs)).2
    else findNumbers cs
termination_by l => l.length
decreasing_by
  · exact grabNumber_snd_length_lt c cs h
  · simp

/-! ### telegram_parser.py : field extractors

Each `_extract_*` method loops over an ordered pattern list and
post-processes regex results.  The regex layer is abstracted: an
extractor receives, per pattern, the capture strings `re.search` /
`re.findall` would return on the cleaned text (`none` / `[]` when the
pattern does not match), and the translation below covers everything the
Python code does with those strings. -/

/-- Python `sorted(list(set(xs)))` for rational lists. -/
def sortedDedup (l : List ℚ) : List ℚ := l.dedup.insertionSort (· ≤ ·)

def LONGc : List Char := ['L', 'O', 'N', 'G']

def SHORTc : List Char := ['S', 'H', 'O', 'R', 'T']

def toUpperList (cs : List Char) : List Char := cs.map Char.toUpper

/-- `_extract_coin`: first pattern whose capture, upper-cased, is 3–6
alphabetic characters. -/
def extract_coin (coinMatches : List (Option (List Char))) : Option (List Char) :=
  coinMatches.findSome? (fun om => om.bind (fun m =>
    let coin := toUpperList m
    if 3 ≤ coin.length ∧ coin.length ≤ 6 ∧ coin.all Char.isAlpha then some coin else none))

/-- `_extract_position_type`: first matching pattern's capture, upper-cased. -/
def extract_position_type (posMatches : List (Option (List Char))) : Option (List Char) :=
  posMatches.findSome? (fun om => om.map toUpperList)

/-- `_extract_leverage`: first capture that parses as an int, clamped to
[1,100] via `min(max(leverage, 1), 100)`; default 1. -/
def extract_leverage (levMatches : List (Option (List Char))) : ℤ :=
  match levMatches.findSome? (fun om => om.bind pyInt) with
  | some leverage => min (max leverage 1) 100
  | none => 1

/-- Loop body of `_extract_entry_zones` for one regex match: a dashed
range "A-B" (split must give exactly two float-parsable parts) expands
to `[start, start + (end-start)/2, end]`; otherwise a single float. -/
def processEntryMatch (m : List Char) : List ℚ :=
  if m.contains '-' then
    match splitDash m with
    | [pa, pb] =>
      match pyFloat (removeCommas (stripWs pa)), pyFloat (removeCommas (stripWs pb)) with
      | some vstart, some vend => [vstart, vstart + (vend - vstart) / 2, vend]
      | _, _ => []
    | _ => []
  else
    match pyFloat (removeCommas (stripWs m)) with
    | some v => [v]
    | none => []

/-- Pool of values the entry rule list yields before dedup/sort
(`entries` just before `sorted(list(set(entries)))`). -/
def entry_rule_values (entryMatches : List (List (List Char))) : List ℚ :=
  entryMatches.flatten.flatMap processEntryMatch

/-- Fallback filter of `_extract_entry_zones`: keep numeric tokens with
`0.000001 < val < 1000000`. -/
def fallbackNumber (num : List Char) : Option ℚ :=
  match pyFloat num with
  | some v => if (1 / 1000000 : ℚ) < v ∧ v < 1000000 then some v else none
  | none => none

/-- `_extract_entry_zones`: pool rule matches, dedup + sort; if empty,
fall back to all plausible numeric tokens of the text (`fallbackNums` is
`re.findall(r"\b\d+\.?\d*\b", text)`); truncate to 5.  Note the fallback
list is appended after the dedup/sort step and is not re-sorted. -/
def extract_entry_zones (entryMatches : List (List (List Char)))
    (fallbackNums : List (List Char)) : List ℚ :=
  let entries := sortedDedup (entry_rule_values entryMatches)
  (if entries = [] then fallbackNums.filterMap fallbackNumber else entries).take 5

/-- `_extract_targets`: for each pattern's first match, pull all
`\d+\.?\d*` tokens out of the capture, keep positive ones, then
dedup + sort and truncate to 5. -/
def extract_targets (targetMatches : List (Option (List Char))) : List ℚ :=
  let targets := targetMatches.flatMap (fun om =>
    match om with
    | some target_text =>
      (findNumbers target_text).filterMap (fun num =>
        match pyFloat num with
        | some t => if 0 < t then some t else none
        | none => none)
    | none => [])
  (sortedDedup targets).take 5

/-- `_extract_stop_loss`: first capture that parses as a float after
comma removal. -/
def extract_stop_loss (stopMatches : List (Option (List Char))) : Option ℚ :=
  stopMatches.findSome? (fun om => om.bind (fun m => pyFloat (removeCommas m)))

/-- `_validate_signal`. -/
def validate_signal (coin : Option (List Char)) (position_type : Option (List Char))
    (entry_zones : List ℚ) : List String :=
  (if coin = none ∨ coin = some [] then ["No coin symbol found"] else []) ++
    (if position_type = none ∨ position_type = some [] then
      ["No position type (LONG/SHORT) found"] else []) ++
    (if entry_zones = [] then ["No entry zones found"] else [])

/-! ### telegram_parser.py : parse_signal / batch_parse_signals -/

/-- Everything the regex layer produces from one cleaned text: per
pattern the capture of `re.search` (coin / position / leverage / target
/ stop rules), per entry pattern the captures of `re.findall`, the
numeric tokens for the entry fallback scan, and whether a cross-margin
keyword matched. -/
structure MatchResults where
  coinMatches : List (Option (List Char))
  posMatches : List (Option (List Char))
  levMatches : List (Option (List Char))
  entryMatches : List (List (List Char))
  fallbackNums : List (List Char)
  targetMatches : List (Option (List Char))
  stopMatches : List (Option (List Char))
  crossDetected : Bool

structure SignalIntent where
  raw_text : String
  coin : Option (List Char) := none
  pair : List Char := ['U', 'S', 'D', 'T']
  position_type : Option (List Char) := none
  entry_zones : List ℚ := []
  leverage : ℤ := 1
  cross_leverage : Bool := false
  targets : List ℚ := []
  stop_loss : Option ℚ := none
  parse_errors : List String
  parsed_successfully : Bool

/-- The `except` branch of `parse_signal` (an exception anywhere in the
extraction is caught and recorded). -/
def parse_failure_intent (text : String) (e : String) : SignalIntent :=
  { raw_text := text
    parse_errors := ["Parsing failed: " ++ e]
    parsed_successfully := false }

/-- `parse_signal`, with the regex layer abstracted as `scan` (which,
like the Python body, can fail with an exception message). -/
def parse_signal (scan : String → Except String MatchResults) (text : String) :
    SignalIntent :=
  match scan text with
  | Except.error e => parse_failure_intent text e
  | Except.ok m =>
    let coin := extract_coin m.coinMatches
    let position_type := extract_position_type m.posMatches
    let entry_zones := extract_entry_zones m.entryMatches m.fallbackNums
    let errors := validate_signal coin position_type entry_zones
    { raw_text := text
      coin := coin
      position_type := position_type
      entry_zones := entry_zones
      leverage := extract_leverage m.levMatches
      cross_leverage := m.crossDetected
      targets := extract_targets m.targetMatches
      stop_loss := extract_stop_loss m.stopMatches
      parse_errors := errors
      parsed_successfully := errors.length = 0 }

/-- `batch_parse_signals`. -/
def batch_parse_signals (scan : String → Except String MatchResults)
    (signals : List String) : List SignalIntent :=
  signals.map (parse_signal scan)

example : pyFloat ('4' :: '5' :: []) = some 45 := by with_unfolding_all rfl
example : pyFloat ('4' :: '.' :: '5' :: []) = some (9 / 2) := by with_unfolding_all rfl
example : findNumbers "47000, 48000".toList = ["47000".toList, "48000".toList] := by with_unfolding_all rfl
example : splitDash "45000-46000".toList = ["45000".toList, "46000".toList] := by with_unfolding_all rfl
example : processEntryMatch "45000-46000".toList = [45000, 45500, 46000] := by with_unfolding_all rfl
example : extract_entry_zones [[], [], [], [], []] ["5".toList, "3".toList, "5".toList]
    = [5, 3, 5] := by with_unfolding_all rfl
example : extract_leverage [none, some "5".toList] = 5 := by with_unfolding_all rfl
example : extract_targets [some "47000, 48000, 49000".toList, none, none, none]
    = [47000, 48000, 49000] := by with_unfolding_all rfl

/-! ### Sortedness facts about `sortedDedup` -/

theorem sortedDedup_sorted_lt (l : List ℚ) : List.Sorted (· < ·) (sortedDedup l) := by
  have hs : List.Sorted (· ≤ ·) (sortedDedup l) := List.sorted_insertionSort _ _
  have hn : (sortedDedup l).Nodup :=
    ((List.perm_insertionSort (· ≤ ·) l.dedup).nodup_iff).mpr (List.nodup_dedup l)
  exact (hs.and hn).imp (fun h => lt_of_le_of_ne h.1 h.2)

theorem sorted_lt_take (n : ℕ) (l : List ℚ) (h : List.Sorted (· < ·) l) :
    List.Sorted (· < ·) (l.take n) :=
  List.Pairwise.sublist (List.take_sublist n l) h

theorem findSome?_eq_none_of_all {α β : Type} (f : α → Option β) :
    ∀ (l : List α), (∀ a ∈ l, f a = none) → l.findSome? f = none := by
  intro l
  induction l with
  | nil => intro _; rfl
  | cons a t ih =>
    intro hall
    have ha : f a = none := hall a (by simp)
    have ht : ∀ x ∈ t, f x = none := fun x hx => hall x (by simp [hx])
    simp [List.findSome?_cons, ha, ih ht]

/-! ### Claims about the parser -/

/-- Oracle for the text "5 3 5": none of the labeled rules matches (the
eight coin, five position, five leverage, five entry, four target and
four stop patterns all require labels or letters that are absent), so
the entry fallback scan sees the numeric tokens 5, 3, 5 in text order. -/
def scanC1 : String → Except String MatchResults := fun _ =>
  Except.ok
    { coinMatches := List.replicate 8 none
      posMatches := List.replicate 5 none
      levMatches := List.replicate 5 none
      entryMatches := List.replicate 5 []
      fallbackNums := ["5".toList, "3".toList, "5".toList]
      targetMatches := List.replicate 4 none
      stopMatches := List.replicate 4 none
      crossDetected := false }

/-- C1 (counterexample): on the input text "5 3 5" the entry rule list
finds nothing and the fallback scan supplies the entries; the resulting
entry-zone list is [5, 3, 5], which is neither sorted ascending nor
duplicate-free, refuting the claim that the lists are always sorted and
deduplicated including the fallback case. -/
theorem C1_counterexample :
    (parse_signal scanC1 "5 3 5").entry_zones = [5, 3, 5] ∧
      ¬ List.Sorted (· ≤ ·) ([5, 3, 5] : List ℚ) := by
  refine ⟨by with_unfolding_all rfl, ?_⟩
  intro hs
  have h53 : (5 : ℚ) ≤ 3 := (List.pairwise_cons.mp hs).1 3 (by simp)
  norm_num at h53

/-- C1 (amended): for every input, the target list of the parsed intent
is strictly sorted ascending (hence duplicate-free) with length at most
5, and the entry-zone list has length at most 5; the entry-zone list is
additionally strictly sorted ascending (hence duplicate-free) whenever
the entry rule list finds at least one value, i.e. whenever the fallback
scan is not used. -/
theorem C1_lists (scan : String → Except String MatchResults) (text : String) :
    List.Sorted (· < ·) (parse_signal scan text).targets ∧
      (parse_signal scan text).targets.length ≤ 5 ∧
      (parse_signal scan text).entry_zones.length ≤ 5 ∧
      (∀ m, scan text = Except.ok m →
        sortedDedup (entry_rule_values m.entryMatches) ≠ [] →
        List.Sorted (· < ·) (parse_signal scan text).entry_zones) := by
  cases hscan : scan text with
  | error e =>
    refine ⟨?_, ?_, ?_, ?_⟩ <;>
      simp [parse_signal, hscan, parse_failure_intent, List.sorted_nil]
  | ok m =>
    have htg : (parse_signal scan text).targets = extract_targets m.targetMatches := by
      simp [parse_signal, hscan]
    have hez : (parse_signal scan text).entry_zones =
        extract_entry_zones m.entryMatches m.fallbackNums := by
      simp [parse_signal, hscan]
    refine ⟨?_, ?_, ?_, ?_⟩
    · rw [htg]
      exact sorted_lt_take 5 _ (sortedDedup_sorted_lt _)
    · rw [htg]
      simpa [extract_targets] using List.length_take_le 5 _
    · rw [hez]
      unfold extract_entry_zones
      simpa using List.length_take_le 5 _
    · intro m' hm' hne
      injection hm' with hmm
      subst hmm
      rw [hez]
      simp only [extract_entry_zones]
      rw [if_neg hne]
      exact sorted_lt_take 5 _ (sortedDedup_sorted_lt _)

/-- Match results of a run through the rule-matched entry path
(entry capture "45000-46000", nothing else matched). -/
def mC1w : MatchResults :=
  { coinMatches := List.replicate 8 none
    posMatches := List.replicate 5 none
    levMatches := List.replicate 5 none
    entryMatches := ["45000-46000".toList] :: List.replicate 4 []
    fallbackNums := []
    targetMatches := List.replicate 4 none
    stopMatches := List.replicate 4 none
    crossDetected := false }

def scanC1w : String → Except String MatchResults := fun _ => Except.ok mC1w

theorem C1_lists_witness :
    List.Sorted (· < ·) (parse_signal scanC1w "e").entry_zones ∧
      (parse_signal scanC1w "e").entry_zones = [45000, 45500, 46000] := by
  have hde : sortedDedup (entry_rule_values mC1w.entryMatches) = [45000, 45500, 46000] := by
    with_unfolding_all rfl
  constructor
  · exact (C1_lists scanC1w "e").2.2.2 mC1w rfl (by rw [hde]; simp)
  · with_unfolding_all rfl

/-- C7: a dashed range "A-B" with A < B matched by an entry rule
contributes, before deduplication, exactly the three points A, (A+B)/2
and B. -/
theorem C7_range_expansion (m pa pb : List Char) (A B : ℚ)
    (hdash : m.contains '-' = true)
    (hsplit : splitDash m = [pa, pb])
    (hA : pyFloat (removeCommas (stripWs pa)) = some A)
    (hB : pyFloat (removeCommas (stripWs pb)) = some B)
    (hlt : A < B) :
    processEntryMatch m = [A, (A + B) / 2, B] := by
  have hmid : A + (B - A) / 2 = (A + B) / 2 := by ring
  unfold processEntryMatch
  rw [hdash]
  simp only [if_true]
  rw [hsplit]
  simp [hA, hB, hmid]

theorem C7_witness :
    processEntryMatch "45000-46000".toList = [45000, (45000 + 46000) / 2, 46000] :=
  C7_range_expansion "45000-46000".toList "45000".toList "46000".toList 45000 46000
    (by with_unfolding_all rfl) (by with_unfolding_all rfl)
    (by with_unfolding_all rfl) (by with_unfolding_all rfl) (by norm_num)

/-- C9: the extracted leverage always lies in [1,100], and when no
leverage rule matches (or no matched token parses as an integer) it is
exactly the default 1. -/
theorem C9_leverage (levMatches : List (Option (List Char))) :
    1 ≤ extract_leverage levMatches ∧ extract_leverage levMatches ≤ 100 ∧
      ((∀ om ∈ levMatches, Option.bind om pyInt = none) →
        extract_leverage levMatches = 1) := by
  unfold extract_leverage
  cases hf : levMatches.findSome? (fun om => om.bind pyInt) with
  | none => exact ⟨by norm_num, by norm_num, fun _ => rfl⟩
  | some lev =>
    refine ⟨le_min (le_max_right lev 1) (by norm_num), min_le_right _ _, ?_⟩
    intro hall
    have hnone := findSome?_eq_none_of_all (fun om => om.bind pyInt) levMatches hall
    rw [hnone] at hf
    cases hf

theorem C9_witness :
    (∀ om ∈ ([none] : List (Option (List Char))), Option.bind om pyInt = none) ∧
      extract_leverage [none] = 1 :=
  ⟨by simp, (C9_leverage [none]).2.2 (by simp)⟩

/-- C6: batch parsing returns one intent per input text, in input order
(position i of the output is the parse of position i of the input), and
an exception while parsing one text is caught and recorded in that
text's own intent as a generic parse-failure error with success = false;
`parse_signal` is a total function, so parsing itself never throws. -/
theorem C6_batch_parse (scan : String → Except String MatchResults)
    (texts : List String) :
    (batch_parse_signals scan texts).length = texts.length ∧
      (∀ i : ℕ, (batch_parse_signals scan texts)[i]? =
        (texts[i]?).map (parse_signal scan)) ∧
      (∀ t e, scan t = Except.error e →
        (parse_signal scan t).parse_errors = ["Parsing failed: " ++ e] ∧
          (parse_signal scan t).parsed_successfully = false) := by
  refine ⟨by simp [batch_parse_signals], ?_, ?_⟩
  · intro i
    simp [batch_parse_signals]
  · intro t e he
    simp [parse_signal, he, parse_failure_intent]

def scanC6 : String → Except String MatchResults := fun _ => Except.error "boom"

theorem C6_witness :
    (parse_signal scanC6 "sig").parse_errors = ["Parsing failed: boom"] ∧
      (parse_signal scanC6 "sig").parsed_successfully = false :=
  (C6_batch_parse scanC6 ["sig"]).2.2 "sig" "boom" rfl

/-! ### backtest_engine.py : candles, entry and exit search

A pandas row of OHLCV data becomes a `Candle`; the DataFrame index
(timestamps) becomes a natural-number `time` field.  `position_type`
flows in from the parsed signal dict and may be absent, hence
`Option (List Char)` compared against the literal strings, exactly like
Python's `position_type == "LONG"` (which is simply false for `None`). -/

structure Candle where
  time : ℕ
  open_ : ℚ
  high : ℚ
  low : ℚ
  close : ℚ
deriving DecidableEq

inductive ExitReason where
  | target
  | stop_loss
  | timeout
deriving DecidableEq

/-- `_find_entry_point`: first candle/entry-price pair (candles in
order, entry prices in list order) with `low <= entry <= high`. -/
def find_entry_point (data : List Candle) (entry_zones : List ℚ) : Option (ℚ × ℕ) :=
  data.findSome? (fun row =>
    entry_zones.findSome? (fun entry_price =>
      if row.low ≤ entry_price ∧ entry_price ≤ row.high then
        some (entry_price, row.time)
      else none))

/-- Per-candle body of the `_find_exit_point` loop: stop first (skipped
when `stop_loss` is `None` or `0.0`, Python truthiness), then targets in
list order. -/
def exit_check_candle (targets : List ℚ) (stop_loss : Option ℚ)
    (position_type : Option (List Char)) (row : Candle) : Option (ℚ × ℕ × ExitReason) :=
  let stopHit : Option (ℚ × ℕ × ExitReason) :=
    match stop_loss with
    | some sl =>
      if sl = 0 then none
      else if position_type = some LONGc ∧ row.low ≤ sl then
        some (sl, row.time, ExitReason.stop_loss)
      else if position_type = some SHORTc ∧ sl ≤ row.high then
        some (sl, row.time, ExitReason.stop_loss)
      else none
    | none => none
  match stopHit with
  | some r => some r
  | none =>
    targets.findSome? (fun target =>
      if position_type = some LONGc ∧ target ≤ row.high then
        some (target, row.time, ExitReason.target)
      else if position_type = some SHORTc ∧ row.low ≤ target then
        some (target, row.time, ExitReason.target)
      else none)

/-- `_find_exit_point`: restrict to candles strictly after the entry
time, return the first hit, else the last candle's close as timeout;
`None` when no candle lies after the entry time. -/
def find_exit_point (data : List Candle) (entry_time : ℕ) (targets : List ℚ)
    (stop_loss : Option ℚ) (position_type : Option (List Char)) :
    Option (ℚ × ℕ × ExitReason) :=
  let exit_data := data.filter (fun c => entry_time < c.time)
  if exit_data.isEmpty then none
  else
    match exit_data.findSome? (exit_check_candle targets stop_loss position_type) with
    | some r => some r
    | none =>
      match exit_data.getLast? with
      | some last => some (last.close, last.time, ExitReason.timeout)
      | none => none

/-- Per-candle exit rule as the claim words it: the stop condition is
checked first (Long: low ≤ stop; Short: high ≥ stop), then each target
in list order (Long: high ≥ target; Short: low ≤ target). -/
def claim_check_candle (targets : List ℚ) (stop_loss : Option ℚ)
    (position_type : Option (List Char)) (row : Candle) : Option (ℚ × ℕ × ExitReason) :=
  let stopHit : Option (ℚ × ℕ × ExitReason) :=
    match stop_loss with
    | some sl =>
      if position_type = some LONGc ∧ row.low ≤ sl then
        some (sl, row.time, ExitReason.stop_loss)
      else if position_type = some SHORTc ∧ sl ≤ row.high then
        some (sl, row.time, ExitReason.stop_loss)
      else none
    | none => none
  match stopHit with
  | some r => some r
  | none =>
    targets.findSome? (fun target =>
      if position_type = some LONGc ∧ target ≤ row.high then
        some (target, row.time, ExitReason.target)
      else if position_type = some SHORTc ∧ row.low ≤ target then
        some (target, row.time, ExitReason.target)
      else none)

/-- Exit search as the claim words it, over the candles after entry:
first candle (in time order) whose per-candle rule fires; otherwise the
last candle's close with reason timeout. -/
def exit_per_claim (after : List Candle) (targets : List ℚ) (stop_loss : Option ℚ)
    (position_type : Option (List Char)) : Option (ℚ × ℕ × ExitReason) :=
  match after.findSome? (claim_check_candle targets stop_loss position_type) with
  | some r => some r
  | none => after.getLast?.map (fun last => (last.close, last.time, ExitReason.timeout))

theorem findSome?_congr_fun {α β : Type} (f g : α → Option β) (l : List α)
    (h : ∀ a, f a = g a) : l.findSome? f = l.findSome? g := by
  have hfg : f = g := funext h
  rw [hfg]

/-- C3 (amended): the exit search considers exactly the candles strictly
after the entry time; within each such candle, in time order, the stop
condition is checked first — provided the stop price, when present, is
not exactly 0, which Python's `if stop_loss:` truthiness silently treats
as "no stop" and never checks — then each target in list order, and the
first satisfied condition fixes exit price/time/reason; if no candle
after entry satisfies any condition, the exit is the last such candle's
close with reason timeout.  `C3_counterexample` below shows the original
claim (stop always checked first when present) fails at a stop of 0. -/
theorem C3_exit_search (data : List Candle) (entry_time : ℕ) (targets : List ℚ)
    (stop_loss : Option ℚ) (position_type : Option (List Char))
    (hs0 : stop_loss ≠ some 0) :
    find_exit_point data entry_time targets stop_loss position_type =
      exit_per_claim (data.filter (fun c => entry_time < c.time)) targets stop_loss
        position_type := by
  have hcheck : ∀ row, exit_check_candle targets stop_loss position_type row =
      claim_check_candle targets stop_loss position_type row := by
    intro row
    unfold exit_check_candle claim_check_candle
    cases stop_loss with
    | none => rfl
    | some sl =>
      have hsl : ¬ sl = 0 := fun h => hs0 (by rw [h])
      simp only [if_neg hsl]
  have hfun : exit_check_candle targets stop_loss position_type =
      claim_check_candle targets stop_loss position_type := funext hcheck
  simp only [find_exit_point, exit_per_claim, hfun]
  cases hfilter : data.filter (fun c => entry_time < c.time) with
  | nil => rfl
  | cons c cs =>
    simp only [List.isEmpty_cons, if_neg]
    cases (c :: cs).findSome? (claim_check_candle targets stop_loss position_type) with
    | some r => rfl
    | none =>
      cases hlast : (c :: cs).getLast? with
      | none => simp [List.getLast?] at hlast
      | some last => rfl

/-- C3 witness: a Long signal over a flat three-candle series at 45000
with target 47000 and stop 44000 entered at time 0 times out at the last
candle's close (Scenario B of the spec). -/
def flatCandles : List Candle :=
  [⟨1, 45000, 45000, 45000, 45000⟩, ⟨2, 45000, 45000, 45000, 45000⟩,
    ⟨3, 45000, 45000, 45000, 45000⟩]

theorem C3_witness :
    find_exit_point flatCandles 0 [47000] (some 44000) (some LONGc) =
        exit_per_claim (flatCandles.filter (fun c => 0 < c.time)) [47000] (some 44000)
          (some LONGc) ∧
      find_exit_point flatCandles 0 [47000] (some 44000) (some LONGc) =
        some (45000, 3, ExitReason.timeout) := by
  constructor
  · exact C3_exit_search flatCandles 0 [47000] (some 44000) (some LONGc) (by simp)
  · with_unfolding_all rfl

/-- C3 (counterexample): a parsed stop price of exactly 0 (e.g. the text
"SL: 0") with a SHORT position refutes the claim as frozen: the claimed
search checks the stop first and, since every candle high 45000 is ≥ 0,
exits on the stop at price 0, while the code's `if stop_loss:` truthiness
skips the zero stop entirely and exits on the target 47000 (low 45000 ≤
47000).  The two searches disagree on the very first candle after entry. -/
theorem C3_counterexample :
    find_exit_point flatCandles 0 [47000] (some 0) (some SHORTc) =
        some (47000, 1, ExitReason.target) ∧
      exit_per_claim (flatCandles.filter (fun c => 0 < c.time)) [47000] (some 0)
          (some SHORTc) =
        some (0, 1, ExitReason.stop_loss) ∧
      find_exit_point flatCandles 0 [47000] (some 0) (some SHORTc) ≠
        exit_per_claim (flatCandles.filter (fun c => 0 < c.time)) [47000] (some 0)
          (some SHORTc) := by
  refine ⟨by with_unfolding_all rfl, by with_unfolding_all rfl, ?_⟩
  intro h
  rw [show find_exit_point flatCandles 0 [47000] (some 0) (some SHORTc) =
        some (47000, 1, ExitReason.target) from by with_unfolding_all rfl,
    show exit_per_claim (flatCandles.filter (fun c => 0 < c.time)) [47000] (some 0)
        (some SHORTc) = some (0, 1, ExitReason.stop_loss) from by
      with_unfolding_all rfl] at h
  simp only [Option.some.injEq, Prod.mk.injEq] at h
  exact absurd h.1 (by norm_num)

/-! ### Position sizing (bitunix_api.py and backtest_engine.py)

Both `_calculate_position_size` methods.  `stop_loss` may be `None`
(modelled `Option ℚ`); Python's `not stop_loss or not entry_price or
stop_loss <= 0 or entry_price <= 0` guard is translated disjunct by
disjunct (`not x` on a float is `x == 0`). -/

/-- `BitunixTradeManager._calculate_position_size` (live execution,
base-multiplier policy). -/
def calculate_position_size_exec (base_size risk_percentage entry_price : ℚ)
    (stop_loss : Option ℚ) : ℚ :=
  match stop_loss with
  | none => base_size
  | some sl =>
    if sl = 0 ∨ entry_price = 0 ∨ sl ≤ 0 ∨ entry_price ≤ 0 then base_size
    else
      let risk_per_unit := |entry_price - sl| / entry_price
      if 0 < risk_per_unit then
        min (risk_percentage / 100 / risk_per_unit * base_size) (base_size * 5)
      else base_size

/-- `BacktestEngine._calculate_position_size` (backtest, balance-at-risk
policy). -/
def calculate_position_size_bt (balance default_size risk_percentage entry_price : ℚ)
    (stop_loss : Option ℚ) : ℚ :=
  match stop_loss with
  | none => min default_size (balance * 0.1)
  | some sl =>
    if sl = 0 ∨ entry_price = 0 ∨ sl ≤ 0 ∨ entry_price ≤ 0 then
      min default_size (balance * 0.1)
    else
      let risk_per_unit := |entry_price - sl| / entry_price
      if 0 < risk_per_unit then
        min (balance * (risk_percentage / 100) / risk_per_unit) (balance * 0.2)
      else min default_size (balance * 0.1)

/-- C2 (counterexample): with defaultSize 10, riskPct 2, entry 100 and a
missing stop, the live sizing function returns the plain defaultSize 10;
the claimed guard value min(defaultSize, balance*0.1) is 5 at balance 50
(the function does not even take a balance), so the claim is false. -/
theorem C2_counterexample :
    calculate_position_size_exec 10 2 100 none = 10 ∧
      (10 : ℚ) ≠ min 10 (50 * 0.1) := by
  constructor
  · rfl
  · norm_num

/-- C2 (amended): the live base-multiplier sizing shares only the guard
condition with balance-at-risk: when the stop is missing or non-positive
or the entry is non-positive it returns defaultSize itself (no balance
is involved); when entry = stop (riskPerUnit = 0) it also returns
defaultSize; otherwise it returns (riskPct/100)/riskPerUnit*defaultSize
capped at defaultSize*5. -/
theorem C2_position_size_exec (base_size risk_percentage entry_price : ℚ)
    (stop_loss : Option ℚ) :
    ((stop_loss = none ∨ (∃ sl, stop_loss = some sl ∧ sl ≤ 0) ∨ entry_price ≤ 0) →
        calculate_position_size_exec base_size risk_percentage entry_price stop_loss =
          base_size) ∧
      (∀ sl, stop_loss = some sl → 0 < sl → 0 < entry_price → entry_price = sl →
        calculate_position_size_exec base_size risk_percentage entry_price stop_loss =
          base_size) ∧
      (∀ sl, stop_loss = some sl → 0 < sl → 0 < entry_price → entry_price ≠ sl →
        calculate_position_size_exec base_size risk_percentage entry_price stop_loss =
          min (risk_percentage / 100 / (|entry_price - sl| / entry_price) * base_size)
            (base_size * 5)) := by
  refine ⟨?_, ?_, ?_⟩
  · rintro (hnone | ⟨sl, hsl, hle⟩ | hent)
    · rw [hnone]; rfl
    · rw [hsl]
      simp only [calculate_position_size_exec]
      rw [if_pos (Or.inr (Or.inr (Or.inl hle)))]
    · cases stop_loss with
      | none => rfl
      | some sl =>
        simp only [calculate_position_size_exec]
        rw [if_pos (Or.inr (Or.inr (Or.inr hent)))]
  · intro sl hsl hslpos hepos heq
    rw [hsl]
    simp only [calculate_position_size_exec]
    rw [if_neg (by push_neg; exact ⟨ne_of_gt hslpos, ne_of_gt hepos, hslpos, hepos⟩)]
    have hz : |entry_price - sl| / entry_price = 0 := by
      rw [heq]; simp
    simp [hz]
  · intro sl hsl hslpos hepos hne
    rw [hsl]
    simp only [calculate_position_size_exec]
    rw [if_neg (by push_neg; exact ⟨ne_of_gt hslpos, ne_of_gt hepos, hslpos, hepos⟩)]
    have hpos : 0 < |entry_price - sl| / entry_price :=
      div_pos (abs_pos.mpr (sub_ne_zero.mpr hne)) hepos
    rw [if_pos hpos]

theorem C2_position_size_exec_witness :
    calculate_position_size_exec 10 2 100 (some 90) =
        min (2 / 100 / (|(100 : ℚ) - 90| / 100) * 10) (10 * 5) ∧
      calculate_position_size_exec 10 2 100 (some 90) = 2 := by
  constructor
  · exact (C2_position_size_exec 10 2 100 (some 90)).2.2 90 rfl (by norm_num)
      (by norm_num) (by norm_num)
  · with_unfolding_all rfl

/-- C4 (counterexample): at balance 100, defaultSize 10, riskPct 2 and
entry = stop = 5 (positive, so the guard does not fire) the backtest
sizing returns min(defaultSize, balance*0.1) = 10, while the claimed
formula (balance*riskPct/100)/riskPerUnit capped at balance*0.2 has
riskPerUnit = 0: under total rational division it evaluates to 0, and
under the reading "the cap applies" it gives 20; the code agrees with
neither. -/
theorem C4_counterexample :
    calculate_position_size_bt 100 10 2 5 (some 5) = 10 ∧
      (10 : ℚ) ≠ min (100 * (2 / 100) / (|(5 : ℚ) - 5| / 5)) (100 * 0.2) ∧
      (10 : ℚ) ≠ 100 * 0.2 := by
  refine ⟨by with_unfolding_all rfl, by norm_num, by norm_num⟩

/-- C4 (amended): the backtest balance-at-risk sizing returns
min(defaultSize, balance*0.1) whenever the stop is missing or
non-positive or the entry is non-positive, and also when entry = stop
(riskPerUnit = 0); otherwise it returns (balance*riskPct/100)/riskPerUnit
with riskPerUnit = |entry-stop|/entry, capped at balance*0.2. -/
theorem C4_position_size_bt (balance default_size risk_percentage entry_price : ℚ)
    (stop_loss : Option ℚ) :
    ((stop_loss = none ∨ (∃ sl, stop_loss = some sl ∧ sl ≤ 0) ∨ entry_price ≤ 0) →
        calculate_position_size_bt balance default_size risk_percentage entry_price
            stop_loss =
          min default_size (balance * 0.1)) ∧
      (∀ sl, stop_loss = some sl → 0 < sl → 0 < entry_price → entry_price = sl →
        calculate_position_size_bt balance default_size risk_percentage entry_price
            stop_loss =
          min default_size (balance * 0.1)) ∧
      (∀ sl, stop_loss = some sl → 0 < sl → 0 < entry_price → entry_price ≠ sl →
        calculate_position_size_bt balance default_size risk_percentage entry_price
            stop_loss =
          min (balance * (risk_percentage / 100) / (|entry_price - sl| / entry_price))
            (balance * 0.2)) := by
  refine ⟨?_, ?_, ?_⟩
  · rintro (hnone | ⟨sl, hsl, hle⟩ | hent)
    · rw [hnone]; rfl
    · rw [hsl]
      simp only [calculate_position_size_bt]
      rw [if_pos (Or.inr (Or.inr (Or.inl hle)))]
    · cases stop_loss with
      | none => rfl
      | some sl =>
        simp only [calculate_position_size_bt]
        rw [if_pos (Or.inr (Or.inr (Or.inr hent)))]
  · intro sl hsl hslpos hepos heq
    rw [hsl]
    simp only [calculate_position_size_bt]
    rw [if_neg (by push_neg; exact ⟨ne_of_gt hslpos, ne_of_gt hepos, hslpos, hepos⟩)]
    have hz : |entry_price - sl| / entry_price = 0 := by
      rw [heq]; simp
    simp [hz]
  · intro sl hsl hslpos hepos hne
    rw [hsl]
    simp only [calculate_position_size_bt]
    rw [if_neg (by push_neg; exact ⟨ne_of_gt hslpos, ne_of_gt hepos, hslpos, hepos⟩)]
    have hpos : 0 < |entry_price - sl| / entry_price :=
      div_pos (abs_pos.mpr (sub_ne_zero.mpr hne)) hepos
    rw [if_pos hpos]

theorem C4_position_size_bt_witness :
    calculate_position_size_bt 1000 10 2 100 (some 90) =
        min (1000 * (2 / 100) / (|(100 : ℚ) - 90| / 100)) (1000 * 0.2) ∧
      calculate_position_size_bt 1000 10 2 100 (some 90) = 200 := by
  constructor
  · exact (C4_position_size_bt 1000 10 2 100 (some 90)).2.2 90 rfl (by norm_num)
      (by norm_num) (by norm_num)
  · with_unfolding_all rfl

/-! ### bitunix_api.py : BitunixTradeManager.execute_signal

The exchange gateway is abstracted: `set_leverage` and `place_order`
return `none` exactly when the corresponding Python call raises.  The
order-placing helpers catch per-order exceptions (`filterMap` keeps the
successful responses and drops the failed ones without aborting), and
`execute_signal` reports success whenever its top-level steps complete. -/

structure Settings where
  default_position_size : ℚ := 10
  risk_percentage : ℚ := 2
  entry_distribution : List ℚ := [40, 35, 25]
  target_distribution : List ℚ := [50, 30, 20]
  default_leverage : ℤ := 1

structure OrderRequest where
  symbol : List Char
  side : List Char
  order_type : List Char
  size : ℚ
  price : Option ℚ
  reduce_only : Bool
deriving DecidableEq

structure Gateway (α : Type) where
  set_leverage : List Char → ℤ → List Char → Option Unit
  place_order : OrderRequest → Option α

structure ExecSignal where
  coin : List Char
  pair : List Char
  position_type : Option (List Char)
  entry_zones : List ℚ
  targets : List ℚ
  stop_loss : Option ℚ
  leverage : Option ℤ
  cross_leverage : Bool

structure ExecutionResult (α : Type) where
  success : Bool
  symbol : List Char := []
  position_size : ℚ := 0
  leverage : ℤ := 1
  entry_orders : List α := []
  target_orders : List α := []
  stop_order : Option α := none
  error : Option String := none

/-- The i-th entry order of `_place_entry_orders`: limit order at
`entry_zones[i]` for `total_size * entry_distribution[i]/100`, buy for
LONG, else sell. -/
def entry_order_request (symbol : List Char) (position_type : Option (List Char))
    (entry_zones : List ℚ) (total_size : ℚ) (settings : Settings) (i : ℕ) :
    OrderRequest :=
  { symbol := symbol
    side := if position_type = some LONGc then "buy".toList else "sell".toList
    order_type := "limit".toList
    size := total_size * (settings.entry_distribution.getD i 0 / 100)
    price := some (entry_zones.getD i 0)
    reduce_only := false }

/-- `_place_entry_orders`: loops the first
`min(len(entry_zones), len(entry_distribution))` steps; each placement
failure is caught and skipped. -/
def place_entry_orders (gw : Gateway α) (symbol : List Char)
    (position_type : Option (List Char)) (entry_zones : List ℚ) (total_size : ℚ)
    (settings : Settings) : List α :=
  if entry_zones = [] then []
  else
    (List.range (min entry_zones.length settings.entry_distribution.length)).filterMap
      (fun i => gw.place_order
        (entry_order_request symbol position_type entry_zones total_size settings i))

/-- The i-th target order of `_place_target_orders`: reduce-only limit
order, direction reversed relative to entries. -/
def target_order_request (symbol : List Char) (position_type : Option (List Char))
    (targets : List ℚ) (total_size : ℚ) (settings : Settings) (i : ℕ) : OrderRequest :=
  { symbol := symbol
    side := if position_type = some LONGc then "sell".toList else "buy".toList
    order_type := "limit".toList
    size := total_size * (settings.target_distribution.getD i 0 / 100)
    price := some (targets.getD i 0)
    reduce_only := true }

/-- `_place_target_orders`. -/
def place_target_orders (gw : Gateway α) (symbol : List Char)
    (position_type : Option (List Char)) (targets : List ℚ) (total_size : ℚ)
    (settings : Settings) : List α :=
  if targets = [] then []
  else
    (List.range (min targets.length settings.target_distribution.length)).filterMap
      (fun i => gw.place_order
        (target_order_request symbol position_type targets total_size settings i))

/-- The stop order of `_place_stop_loss_order`: reduce-only stop-market
order for the full size. -/
def stop_order_request (symbol : List Char) (position_type : Option (List Char))
    (stop_loss : ℚ) (total_size : ℚ) : OrderRequest :=
  { symbol := symbol
    side := if position_type = some LONGc then "sell".toList else "buy".toList
    order_type := "stop_market".toList
    size := total_size
    price := some stop_loss
    reduce_only := true }

/-- `_place_stop_loss_order`: skipped when `stop_loss` is `None` or 0
(Python truthiness); a placement failure is caught and yields `None`. -/
def place_stop_loss_order (gw : Gateway α) (symbol : List Char)
    (position_type : Option (List Char)) (stop_loss : Option ℚ) (total_size : ℚ) :
    Option α :=
  match stop_loss with
  | none => none
  | some sl =>
    if sl = 0 then none
    else gw.place_order (stop_order_request symbol position_type sl total_size)

/-- Position size as `execute_signal` computes it: defaults from
settings, first entry-zone price (or 0 when the zone list is empty). -/
def exec_position_size (signal_data : ExecSignal) (settings : Settings) : ℚ :=
  calculate_position_size_exec settings.default_position_size settings.risk_percentage
    (signal_data.entry_zones.headD 0) signal_data.stop_loss

/-- `execute_signal`: set leverage (a raise here is caught by the
top-level handler and yields `success = false`), compute the position
size, then place entry, target and stop orders; per-order failures are
swallowed inside the helpers, so the result still reports success. -/
def execute_signal (gw : Gateway α) (signal_data : ExecSignal) (settings : Settings) :
    ExecutionResult α :=
  let symbol := signal_data.coin ++ signal_data.pair
  let leverage := signal_data.leverage.getD settings.default_leverage
  let margin_mode := if signal_data.cross_leverage then "cross".toList
    else "isolated".toList
  match gw.set_leverage symbol leverage margin_mode with
  | none => { success := false, error := some "set_leverage raised" }
  | some _ =>
    let position_size := exec_position_size signal_data settings
    { success := true
      symbol := symbol
      position_size := position_size
      leverage := leverage
      entry_orders := place_entry_orders gw symbol signal_data.position_type
        signal_data.entry_zones position_size settings
      target_orders := place_target_orders gw symbol signal_data.position_type
        signal_data.targets position_size settings
      stop_order := place_stop_loss_order gw symbol signal_data.position_type
        signal_data.stop_loss position_size }

/-- C5: when the top-level flow completes (here: the set-leverage call
does not raise; sizing and ladder construction are total), the execution
result reports success = true, and a failure on any single order does
not abort the rest: every entry/target order whose own placement
succeeds appears in the result, regardless of failures on other orders,
and likewise for the stop order. -/
theorem C5_execution {α : Type} (gw : Gateway α) (signal_data : ExecSignal)
    (settings : Settings)
    (hlev : gw.set_leverage (signal_data.coin ++ signal_data.pair)
      (signal_data.leverage.getD settings.default_leverage)
      (if signal_data.cross_leverage then "cross".toList else "isolated".toList) =
      some ()) :
    (execute_signal gw signal_data settings).success = true ∧
      (∀ i o, i < min signal_data.entry_zones.length
          settings.entry_distribution.length →
        gw.place_order (entry_order_request (signal_data.coin ++ signal_data.pair)
          signal_data.position_type signal_data.entry_zones
          (exec_position_size signal_data settings) settings i) = some o →
        o ∈ (execute_signal gw signal_data settings).entry_orders) ∧
      (∀ i o, i < min signal_data.targets.length
          settings.target_distribution.length →
        gw.place_order (target_order_request (signal_data.coin ++ signal_data.pair)
          signal_data.position_type signal_data.targets
          (exec_position_size signal_data settings) settings i) = some o →
        o ∈ (execute_signal gw signal_data settings).target_orders) ∧
      (∀ sl o, signal_data.stop_loss = some sl → sl ≠ 0 →
        gw.place_order (stop_order_request (signal_data.coin ++ signal_data.pair)
          signal_data.position_type sl (exec_position_size signal_data settings)) =
          some o →
        (execute_signal gw signal_data settings).stop_order = some o) := by
  have hexec : execute_signal gw signal_data settings =
      let symbol := signal_data.coin ++ signal_data.pair
      let position_size := exec_position_size signal_data settings
      { success := true
        symbol := symbol
        position_size := position_size
        leverage := signal_data.leverage.getD settings.default_leverage
        entry_orders := place_entry_orders gw symbol signal_data.position_type
          signal_data.entry_zones position_size settings
        target_orders := place_target_orders gw symbol signal_data.position_type
          signal_data.targets position_size settings
        stop_order := place_stop_loss_order gw symbol signal_data.position_type
          signal_data.stop_loss position_size } := by
    simp only [execute_signal, hlev]
  refine ⟨by rw [hexec], ?_, ?_, ?_⟩
  · intro i o hi ho
    rw [hexec]
    simp only [place_entry_orders]
    have hne : signal_data.entry_zones ≠ [] := by
      intro hnil
      rw [hnil] at hi
      simp at hi
    rw [if_neg hne]
    exact List.mem_filterMap.mpr ⟨i, List.mem_range.mpr hi, ho⟩
  · intro i o hi ho
    rw [hexec]
    simp only [place_target_orders]
    have hne : signal_data.targets ≠ [] := by
      intro hnil
      rw [hnil] at hi
      simp at hi
    rw [if_neg hne]
    exact List.mem_filterMap.mpr ⟨i, List.mem_range.mpr hi, ho⟩
  · intro sl o hsl hne ho
    rw [hexec]
    simp only [place_stop_loss_order, hsl]
    rw [if_neg hne]
    exact ho

/-- Concrete gateway whose order placement fails exactly on price 100
(so the first entry order fails and the second succeeds). -/
def gwC5 : Gateway OrderRequest :=
  { set_leverage := fun _ _ _ => some ()
    place_order := fun r => if r.price = some 100 then none else some r }

def sigC5 : ExecSignal :=
  { coin := "BTC".toList
    pair := "USDT".toList
    position_type := some LONGc
    entry_zones := [100, 200]
    targets := [300]
    stop_loss := some 50
    leverage := some 5
    cross_leverage := false }

theorem C5_witness :
    (execute_signal gwC5 sigC5 {}).success = true ∧
      entry_order_request ("BTC".toList ++ "USDT".toList) (some LONGc) [100, 200]
          (exec_position_size sigC5 {}) {} 1 ∈
        (execute_signal gwC5 sigC5 {}).entry_orders := by
  have h := C5_execution gwC5 sigC5 {} rfl
  refine ⟨h.1, h.2.1 1 _ (by with_unfolding_all decide) ?_⟩
  with_unfolding_all rfl

/-! ### backtest_engine.py : trade simulation, run loop and metrics

The Binance data fetch is abstracted as `get_historical_data : symbol →
Option (List Candle)` (`none` = failed fetch).  `np.std(returns) > 0`
holds exactly when the population variance of the returns is positive,
so the Sharpe branch condition is encoded on the variance; the numeric
value of `np.sqrt` is abstracted as the parameter `sqrtF`, which only
the positive-variance branch uses. -/

structure Trade where
  coin : List Char
  position_type : Option (List Char)
  entry_price : ℚ
  exit_price : ℚ
  entry_time : ℕ
  exit_time : ℕ
  position_size : ℚ
  leverage : ℤ
  pnl : ℚ
  pnl_percentage : ℚ
  exit_reason : ExitReason
deriving DecidableEq

structure EquityPoint where
  timestamp : ℕ
  balance : ℚ
  trade_pnl : ℚ
deriving DecidableEq

structure BtSignal where
  coin : Option (List Char)
  pair : List Char := "USDT".toList
  position_type : Option (List Char) := none
  entry_zones : List ℚ := []
  targets : List ℚ := []
  stop_loss : Option ℚ := none
  leverage : ℤ := 1

/-- `_simulate_trade`.  The `if not historical_data` check is modelled
as a list emptiness test — its evident intent.  Note that in the actual
program `historical_data` is a pandas DataFrame, whose truth value
raises ValueError; that exception is caught by the per-trade handler, so
the real `_simulate_trade` returns None on every successful fetch and
never completes a trade.  The emptiness-test model therefore covers a
strict superset of the completed-trade behaviors the program can
exhibit (theorems quantifying over arbitrary trade histories remain
valid for the program's always-empty one).  The Python
`if not entry_price` / `if not exit_price` guards also reject a price of
exactly 0, and a division by a zero position size raises (caught by the
per-trade handler), hence the final guard. -/
def simulate_trade (get_historical_data : List Char → Option (List Candle))
    (signal : BtSignal) (settings : Settings) (balance : ℚ) : Option Trade :=
  match signal.coin with
  | none => none
  | some coin =>
    if signal.entry_zones = [] then none
    else
      match get_historical_data (coin ++ signal.pair) with
      | none => none
      | some historical_data =>
        if historical_data.isEmpty then none
        else
          let position_size := calculate_position_size_bt balance
            settings.default_position_size settings.risk_percentage
            (signal.entry_zones.headD 0) signal.stop_loss
          match find_entry_point historical_data signal.entry_zones with
          | none => none
          | some (entry_price, entry_time) =>
            if entry_price = 0 then none
            else
              match find_exit_point historical_data entry_time signal.targets
                  signal.stop_loss signal.position_type with
              | none => none
              | some (exit_price, exit_time, exit_reason) =>
                if exit_price = 0 then none
                else
                  let pnl0 := if signal.position_type = some LONGc then
                      (exit_price - entry_price) / entry_price * position_size
                    else (entry_price - exit_price) / entry_price * position_size
                  let pnl := pnl0 * (signal.leverage : ℚ)
                  if position_size = 0 then none
                  else some
                    { coin := coin
                      position_type := signal.position_type
                      entry_price := entry_price
                      exit_price := exit_price
                      entry_time := entry_time
                      exit_time := exit_time
                      position_size := position_size
                      leverage := signal.leverage
                      pnl := pnl
                      pnl_percentage := pnl / position_size * 100
                      exit_reason := exit_reason }

/-- Python truthiness of `signal.get("coin")`. -/
def truthyCoin : Option (List Char) → Bool
  | none => false
  | some c => ¬ c.isEmpty

/-- The signal loop of `run_backtest`: skip falsy coin / empty entry
zones, simulate, and on a completed trade accumulate balance and record
an equity point; per-signal failures just skip the signal.  Returns
(trade history, equity curve, final balance). -/
def process_signals (get_historical_data : List Char → Option (List Candle))
    (settings : Settings) :
    List BtSignal → ℚ → List Trade × List EquityPoint × ℚ
  | [], balance => ([], [], balance)
  | signal :: rest, balance =>
    if ¬ (truthyCoin signal.coin ∧ signal.entry_zones ≠ []) then
      process_signals get_historical_data settings rest balance
    else
      match simulate_trade get_historical_data signal settings balance with
      | none => process_signals get_historical_data settings rest balance
      | some trade_result =>
        let balance2 := balance + trade_result.pnl
        let r := process_signals get_historical_data settings rest balance2
        (trade_result :: r.1,
          { timestamp := trade_result.exit_time
            balance := balance2
            trade_pnl := trade_result.pnl } :: r.2.1,
          r.2.2)

structure Metrics where
  max_drawdown : ℚ
  sharpe_ratio : ℚ
  average_trade : ℚ
  profit_factor : ℚ
  gross_profit : ℚ := 0
  gross_loss : ℚ := 0
  largest_win : ℚ := 0
  largest_loss : ℚ := 0
deriving DecidableEq

def listMean (l : List ℚ) : ℚ := l.sum / l.length

/-- Population variance, `np.std(l)^2` (ddof = 0). -/
def listPVar (l : List ℚ) : ℚ := ((l.map (fun x => (x - listMean l) ^ 2)).sum) / l.length

/-- `[initial_balance] + [point["balance"] for point in equity_curve]`. -/
def equity_values_of (initial_balance : ℚ) (equity_curve : List EquityPoint) : List ℚ :=
  initial_balance :: equity_curve.map (fun p => p.balance)

/-- Per-step simple returns `(E_i - E_{i-1}) / E_{i-1}`. -/
def step_returns (l : List ℚ) : List ℚ :=
  l.zipWith (fun prev cur => (cur - prev) / prev) l.tail

/-- The max-drawdown loop: forward-only running peak, drawdown
`(peak - value) / peak * 100`, report the running maximum. -/
def drawdown_loop : List ℚ → ℚ → ℚ → ℚ × ℚ
  | [], peak, mdd => (peak, mdd)
  | v :: vs, peak, mdd =>
    let peak2 := if peak < v then v else peak
    drawdown_loop vs peak2 (max mdd ((peak2 - v) / peak2 * 100))

/-- `_calculate_metrics`. -/
def calculate_metrics (sqrtF : ℚ → ℚ) (trade_history : List Trade)
    (initial_balance : ℚ) (equity_curve : List EquityPoint) : Metrics :=
  if trade_history = [] then
    { max_drawdown := 0, sharpe_ratio := 0, average_trade := 0, profit_factor := 0 }
  else
    let equity_values := equity_values_of initial_balance equity_curve
    let max_drawdown := (drawdown_loop equity_values (equity_values.headD 0) 0).2
    let returns := step_returns equity_values
    let sharpe_ratio :=
      if returns ≠ [] ∧ 0 < listPVar returns then
        listMean returns / sqrtF (listPVar returns) * sqrtF 252
      else 0
    let trade_pnls := trade_history.map (fun t => t.pnl)
    let winning := trade_pnls.filter (fun p => decide (0 < p))
    let losing := trade_pnls.filter (fun p => decide (p ≤ 0))
    let gross_profit := if winning.isEmpty then 0 else winning.sum
    let gross_loss := if losing.isEmpty then 0 else |losing.sum|
    { max_drawdown := max_drawdown
      sharpe_ratio := sharpe_ratio
      average_trade := if trade_pnls.isEmpty then 0 else listMean trade_pnls
      profit_factor := if 0 < gross_loss then gross_profit / gross_loss else 0
      gross_profit := gross_profit
      gross_loss := gross_loss
      largest_win := match winning with
        | [] => 0
        | h :: t => t.foldl max h
      largest_loss := match losing with
        | [] => 0
        | h :: t => t.foldl min h }

structure BacktestReport where
  initial_balance : ℚ
  final_balance : ℚ
  total_pnl : ℚ
  total_pnl_percentage : ℚ
  total_trades : ℕ
  winning_trades : ℕ
  losing_trades : ℕ
  win_rate : ℚ
  max_drawdown : ℚ
  sharpe_ratio : ℚ
  trade_history : List Trade
  equity_curve : List EquityPoint
  metrics : Metrics

/-- `run_backtest`. -/
def run_backtest (get_historical_data : List Char → Option (List Candle))
    (signals : List BtSignal) (settings : Settings) (initial_balance : ℚ)
    (sqrtF : ℚ → ℚ) : BacktestReport :=
  let r := process_signals get_historical_data settings signals initial_balance
  let trade_history := r.1
  let equity_curve := r.2.1
  let balance := r.2.2
  let metrics := calculate_metrics sqrtF trade_history initial_balance equity_curve
  { initial_balance := initial_balance
    final_balance := balance
    total_pnl := balance - initial_balance
    total_pnl_percentage := (balance - initial_balance) / initial_balance * 100
    total_trades := trade_history.length
    winning_trades := trade_history.countP (fun t => decide (0 < t.pnl))
    losing_trades := trade_history.countP (fun t => decide (t.pnl ≤ 0))
    win_rate := if trade_history ≠ [] then
        ((trade_history.countP (fun t => decide (0 < t.pnl)) : ℚ) /
          trade_history.length) * 100
      else 0
    max_drawdown := metrics.max_drawdown
    sharpe_ratio := metrics.sharpe_ratio
    trade_history := trade_history
    equity_curve := equity_curve
    metrics := metrics }

theorem drawdown_loop_ge (l : List ℚ) : ∀ peak mdd, mdd ≤ (drawdown_loop l peak mdd).2 := by
  induction l with
  | nil =>
    intro peak mdd
    simp [drawdown_loop]
  | cons v vs ih =>
    intro peak mdd
    simp only [drawdown_loop]
    exact le_trans (le_max_left _ _) (ih _ _)

/-- C8: the reported max drawdown (running forward-only peak, drawdown
`(peak-value)/peak*100`, maximum observed, seeded with 0) is always
non-negative, and the Sharpe ratio is exactly 0 whenever the per-step
return series has zero standard deviation, i.e. zero population
variance — including the empty-trade case, where the early return gives
0 for every metric. -/
theorem C8_metrics (sqrtF : ℚ → ℚ) (trade_history : List Trade)
    (initial_balance : ℚ) (equity_curve : List EquityPoint) :
    0 ≤ (calculate_metrics sqrtF trade_history initial_balance
        equity_curve).max_drawdown ∧
      (listPVar (step_returns (equity_values_of initial_balance equity_curve)) = 0 →
        (calculate_metrics sqrtF trade_history initial_balance
          equity_curve).sharpe_ratio = 0) := by
  by_cases h : trade_history = []
  · subst h
    exact ⟨by simp [calculate_metrics], fun _ => by simp [calculate_metrics]⟩
  · constructor
    · simp only [calculate_metrics, if_neg h]
      exact drawdown_loop_ge _ _ _
    · intro hvar
      simp only [calculate_metrics, if_neg h]
      split
      next hc => exact absurd hc.2 (by rw [hvar]; exact lt_irrefl 0)
      next => rfl

def tradeC8 : Trade :=
  { coin := "BTC".toList
    position_type := some LONGc
    entry_price := 100
    exit_price := 100
    entry_time := 1
    exit_time := 2
    position_size := 10
    leverage := 1
    pnl := 0
    pnl_percentage := 0
    exit_reason := ExitReason.timeout }

theorem C8_witness :
    listPVar (step_returns (equity_values_of 1000 [⟨2, 1000, 0⟩])) = 0 ∧
      0 ≤ (calculate_metrics id [tradeC8] 1000 [⟨2, 1000, 0⟩]).max_drawdown ∧
      (calculate_metrics id [tradeC8] 1000 [⟨2, 1000, 0⟩]).sharpe_ratio = 0 := by
  have hv : listPVar (step_returns (equity_values_of 1000 [⟨2, 1000, 0⟩])) = 0 := by
    with_unfolding_all rfl
  have h := C8_metrics id [tradeC8] 1000 [⟨2, 1000, 0⟩]
  exact ⟨hv, h.1, h.2 hv⟩

theorem countP_pos_add_nonpos (l : List Trade) :
    l.countP (fun t => decide (0 < t.pnl)) + l.countP (fun t => decide (t.pnl ≤ 0)) =
      l.length := by
  induction l with
  | nil => rfl
  | cons t ts ih =>
    by_cases h : 0 < t.pnl
    · have h2 : ¬ t.pnl ≤ 0 := not_le.mpr h
      simp [List.countP_cons, h, h2]
      omega
    · have h2 : t.pnl ≤ 0 := not_lt.mp h
      simp [List.countP_cons, h, h2]
      omega

/-- C10: in every backtest report, the winning count is exactly the
number of completed trades with pnl > 0, the losing count is exactly the
number with pnl ≤ 0 (a trade with pnl exactly 0 counts as losing), the
total is the length of the trade history, and winning + losing = total. -/
theorem C10_win_loss_counts (get_historical_data : List Char → Option (List Candle))
    (signals : List BtSignal) (settings : Settings) (initial_balance : ℚ)
    (sqrtF : ℚ → ℚ) :
    (run_backtest get_historical_data signals settings initial_balance
          sqrtF).winning_trades =
        (run_backtest get_historical_data signals settings initial_balance
          sqrtF).trade_history.countP (fun t => decide (0 < t.pnl)) ∧
      (run_backtest get_historical_data signals settings initial_balance
          sqrtF).losing_trades =
        (run_backtest get_historical_data signals settings initial_balance
          sqrtF).trade_history.countP (fun t => decide (t.pnl ≤ 0)) ∧
      (run_backtest get_historical_data signals settings initial_balance
          sqrtF).total_trades =
        (run_backtest get_historical_data signals settings initial_balance
          sqrtF).trade_history.length ∧
      (run_backtest get_historical_data signals settings initial_balance
            sqrtF).winning_trades +
          (run_backtest get_historical_data signals settings initial_balance
            sqrtF).losing_trades =
        (run_backtest get_historical_data signals settings initial_balance
          sqrtF).total_trades := by
  refine ⟨rfl, rfl, rfl, ?_⟩
  simp only [run_backtest]
  exact countP_pos_add_nonpos _

end Arie
